import Mathlib

/-!
Shallow embedding of the decision-and-rate-limiting core of the repository
(src/src/message_shock.rs: `word_shock` and `ShockCooldown::can_shock`,
configuration shape from src/src/config.rs, cooldown table from
src/src/context.rs).

Modelling conventions:
* Characters are modelled by their Unicode code points (`Nat`); the texts in
  the claims are ASCII, and the regex classes `\s`, `\w`, `\b` and Rust's
  `str::to_lowercase` are embedded on the ASCII range.
* Time is modelled in whole milliseconds (`Nat`).  `std::time::Instant` is a
  monotone clock and `Instant::elapsed`/`duration_since` saturate at zero,
  which Nat subtraction models exactly.  `Duration::as_secs` is division by
  1000.  The source reads the clock at several places inside one handler
  invocation; the model gives `word_shock` two clock parameters: `t1` for the
  first block (entry creation via `or_insert` and both reads inside
  `can_shock`) and `t2` for the later `elapsed()` read in the denial-reply
  computation (source lines 72-78).
* `u64` subtraction in the denial computation is modelled with wrap-around
  modulo 2^64 (`u64_sub`).
* Fallible collaborator calls that the source `unwrap`s are modelled by a
  Boolean success flag; an `unwrap` on failure aborts the handler, leaving
  the mutations made so far in place (the lock guard is released on unwind),
  which the model records with the `Outcome.panicked` constructor.
-/

namespace MessageShock

/-- Code points of a string, for writing concrete ASCII message texts. -/
def ascii (s : String) : List Nat := s.data.map Char.toNat

/-- Membership in the regex class `\w` (letters, digits, underscore), on the
ASCII range; this is the word-character notion of the `\b` boundaries in the
source regex `(\b[^\s]+\b)` (message_shock.rs line 17). -/
def isWordChar (c : Nat) : Bool :=
  (48 ≤ c && c ≤ 57) || (65 ≤ c && c ≤ 90) || (97 ≤ c && c ≤ 122) || c == 95

/-- Membership in the regex class `\s` on the ASCII range: space, tab,
newline, carriage return, form feed, vertical tab. -/
def isSpaceChar (c : Nat) : Bool :=
  c == 32 || c == 9 || c == 10 || c == 13 || c == 12 || c == 11

/-- Maximal runs of characters satisfying `p`, accumulator form. -/
def runsAux (p : Nat → Bool) : List Nat → List Nat → List (List Nat)
  | [], acc => if acc.isEmpty then [] else [acc]
  | c :: cs, acc =>
    if p c then runsAux p cs (acc ++ [c])
    else if acc.isEmpty then runsAux p cs []
    else acc :: runsAux p cs []

/-- Maximal runs of characters satisfying `p` (delimited by characters
failing `p`). -/
def runsBy (p : Nat → Bool) (l : List Nat) : List (List Nat) := runsAux p l []

/-- Dropping the leading and trailing non-word characters of a chunk. -/
def trimNonWord (l : List Nat) : List Nat :=
  ((l.dropWhile (fun c => !isWordChar c)).reverse.dropWhile
      (fun c => !isWordChar c)).reverse

/-- The tokens the source extracts from a message text (message_shock.rs
lines 17-22): the non-overlapping leftmost-greedy matches of the regex
`(\b[^\s]+\b)`.  A match cannot cross whitespace, starts at the first word
boundary of its whitespace-delimited chunk and greedily ends at the last
word boundary of that chunk; hence per chunk there is at most one match,
namely the chunk with its leading and trailing non-word characters stripped,
produced only when the chunk contains a word character. -/
def message_words (content : List Nat) : List (List Nat) :=
  (runsBy (fun c => !isSpaceChar c) content).filterMap
    (fun chunk =>
      let t := trimNonWord chunk
      if t.isEmpty then none else some t)

/-- Tokenization as the spec's words describe it, for comparison with the
source behaviour: the maximal runs of word characters (splitting on runs of
non-word characters). -/
def spec_tokens (content : List Nat) : List (List Nat) := runsBy isWordChar content

/-- ASCII model of Rust `char` lowercasing as used by `str::to_lowercase`
(message_shock.rs line 44) on one code point. -/
def lower_char (c : Nat) : Nat := if 65 ≤ c && c ≤ 90 then c + 32 else c

/-- ASCII model of Rust `str::to_lowercase` (message_shock.rs line 44). -/
def to_lowercase (l : List Nat) : List Nat := l.map lower_char

/-- The message fields the handler reads: raw text, mentioned users
(`Message::mentions_user_id`), and the author id. -/
structure Message where
  content : List Nat
  mentionedUserIds : List Nat
  authorId : Nat
deriving DecidableEq

/-- The configuration fields the handler reads (config.rs): operator ids
(`discord_config.operator_ids`), trigger words, window duration in seconds
(`u32`), and the per-window fire limit (`u32`). -/
structure Config where
  operator_ids : List Nat
  trigger_words : List (List Nat)
  cooldown_segment_duration : Nat
  max_shocks_per_segment : Nat
deriving DecidableEq

/-- The trigger decision of message_shock.rs lines 30-54 (the labelled block
computing `do_shock`): first the operator-mention check, then, only if that
fails, the loop comparing each lower-cased token for equality with a
configured trigger word. -/
def do_shock (config : Config) (msg : Message) : Bool :=
  config.operator_ids.any (fun x => msg.mentionedUserIds.contains x)
    || (message_words msg.content).any
        (fun word => config.trigger_words.any (fun x => x == to_lowercase word))

/-- Per-user cooldown state (message_shock.rs lines 124-130): the `Instant`
the current segment started at, modelled as a millisecond timestamp, and the
number of shocks dealt during the current segment (`u32`; it only ever grows
while strictly below `max_shocks_per_segment`, a `u32`, so it never
overflows and is modelled as `Nat`). -/
structure ShockCooldown where
  stopwatch : Nat
  shock_count : Nat
deriving DecidableEq

/-- Embeds `ShockCooldown::can_shock` (message_shock.rs lines 138-151): it
resets the stopwatch and the count when the segment has elapsed, and returns
whether the count is below the maximum.  Contrary to its own doc comment
("Return true if so, and increment shock_count") it does NOT increment the
count.  Both clock reads inside the method (`elapsed()` and
`Instant::now()`) are modelled as the single instant `now_ms`; the mutation
of `self` is returned as the first component. -/
def can_shock (self : ShockCooldown) (now_ms : Nat) (segment_length : Nat)
    (maximum_shocks : Nat) : ShockCooldown × Bool :=
  let s := if segment_length ≤ now_ms - self.stopwatch then
    ShockCooldown.mk now_ms 0 else self
  (s, decide (s.shock_count < maximum_shocks))

/-- Wrapping `u64` subtraction, for the denial-reply arithmetic
`config.cooldown_segment_duration as u64 - elapsed.as_secs()` at
message_shock.rs lines 72-78. -/
def u64_sub (a b : Nat) : Nat := (2 ^ 64 + a % 2 ^ 64 - b % 2 ^ 64) % 2 ^ 64

/-- The cooldown table (context.rs: `HashMap<UserId, ShockCooldown>`),
as a map from user id to optional entry. -/
def Table : Type := Nat → Option ShockCooldown

/-- Map insertion (`HashMap::insert`, and the insertion performed by
`entry(..).or_insert(..)`). -/
def update (table : Table) (u : Nat) (e : ShockCooldown) : Table :=
  fun v => if v = u then some e else table v

/-- The table the process starts with (main.rs line 211: `HashMap::new()`). -/
def emptyTable : Table := fun _ => none

/-- What one `word_shock` invocation does, as observable from outside:
no trigger matched; the limit was hit and "Wait n seconds..." was sent;
the shock was dealt and counted; or a collaborator call that the source
`unwrap`s failed and the handler aborted. -/
inductive Outcome where
  | noTrigger : Outcome
  | denied : Nat → Outcome
  | shocked : Outcome
  | panicked : Outcome
deriving DecidableEq

/-- Embeds the handler `word_shock` (message_shock.rs lines 12-121).
`t1` is the clock instant of the first block (the `or_insert` default and
the reads inside `can_shock`), `t2` the instant of the later `elapsed()`
read in the denial-reply computation, and `shock_ok` whether the
`shocker.shock(40, 1s)` call succeeds (on failure its `unwrap` aborts the
handler after the `or_insert`/`can_shock` mutations but before the
`shock_count += 1` update).  Because of `&&` short-circuiting, when
`do_shock` is false the cooldown table is not touched at all. -/
def word_shock (config : Config) (msg : Message) (table : Table)
    (t1 t2 : Nat) (shock_ok : Bool) : Table × Outcome :=
  if do_shock config msg then
    let entry0 := (table msg.authorId).getD (ShockCooldown.mk t1 0)
    let r := can_shock entry0 t1 (1000 * config.cooldown_segment_duration)
      config.max_shocks_per_segment
    let table1 := update table msg.authorId r.1
    if r.2 then
      if shock_ok then
        (update table1 msg.authorId
          (ShockCooldown.mk r.1.stopwatch (r.1.shock_count + 1)),
          Outcome.shocked)
      else (table1, Outcome.panicked)
    else
      (table1, Outcome.denied (u64_sub config.cooldown_segment_duration
        ((t2 - r.1.stopwatch) / 1000)))
  else (table, Outcome.noTrigger)

/-- One inbound message event: the two clock instants of the handler run,
whether the actuator call would succeed, and the message. -/
structure Event where
  t1 : Nat
  t2 : Nat
  shock_ok : Bool
  msg : Message

/-- Folding a sequence of message events through the handler, starting from
a given table. -/
def run (config : Config) (table : Table) : List Event → Table
  | [] => table
  | e :: rest => run config (word_shock config e.msg table e.t1 e.t2 e.shock_ok).1 rest

theorem update_same (table : Table) (u : Nat) (e : ShockCooldown) :
    update table u e u = some e := by simp [update]

theorem update_other (table : Table) (u : Nat) (e : ShockCooldown) (v : Nat)
    (h : v ≠ u) : update table u e v = table v := by simp [update, h]

/-- Step lemma: trigger matched, existing entry, window not elapsed, room
left, actuator succeeds: the entry is re-inserted by `can_shock`'s in-place
mutation and then overwritten with the incremented count. -/
theorem ws_allowed (config : Config) (msg : Message) (table : Table)
    (t1 t2 : Nat) (s c : Nat)
    (hds : do_shock config msg = true)
    (he : table msg.authorId = some ⟨s, c⟩)
    (hn : t1 - s < 1000 * config.cooldown_segment_duration)
    (hc : c < config.max_shocks_per_segment) :
    word_shock config msg table t1 t2 true =
      (update (update table msg.authorId ⟨s, c⟩) msg.authorId ⟨s, c + 1⟩,
        Outcome.shocked) := by
  have hreset : ¬ 1000 * config.cooldown_segment_duration ≤ t1 - s := by omega
  simp [word_shock, can_shock, hds, he, hreset, hc]

/-- Step lemma: trigger matched, existing entry, window not elapsed, limit
reached: the call is denied with the wait computed from the second clock
reading `t2`, and the unchanged entry is re-inserted. -/
theorem ws_denied (config : Config) (msg : Message) (table : Table)
    (t1 t2 : Nat) (ok : Bool) (s c : Nat)
    (hds : do_shock config msg = true)
    (he : table msg.authorId = some ⟨s, c⟩)
    (hn : t1 - s < 1000 * config.cooldown_segment_duration)
    (hc : config.max_shocks_per_segment ≤ c) :
    word_shock config msg table t1 t2 ok =
      (update table msg.authorId ⟨s, c⟩,
        Outcome.denied (u64_sub config.cooldown_segment_duration
          ((t2 - s) / 1000))) := by
  have hreset : ¬ 1000 * config.cooldown_segment_duration ≤ t1 - s := by omega
  have hlt : ¬ c < config.max_shocks_per_segment := by omega
  simp [word_shock, can_shock, hds, he, hreset, hlt]

/-- Step lemma: trigger matched, no entry yet, a positive limit, actuator
succeeds: a fresh window starting at `t1` is created and the firing counted. -/
theorem ws_fresh (config : Config) (msg : Message) (table : Table)
    (t1 t2 : Nat)
    (hds : do_shock config msg = true)
    (he : table msg.authorId = none)
    (hc : 0 < config.max_shocks_per_segment) :
    word_shock config msg table t1 t2 true =
      (update (update table msg.authorId ⟨t1, 0⟩) msg.authorId ⟨t1, 1⟩,
        Outcome.shocked) := by
  simp [word_shock, can_shock, hds, he, hc]

/-- Step lemma: trigger matched, existing entry whose window has elapsed, a
positive limit, actuator succeeds: the window is reset to start at `t1` and
the firing counted. -/
theorem ws_rollover (config : Config) (msg : Message) (table : Table)
    (t1 t2 : Nat) (s c : Nat)
    (hds : do_shock config msg = true)
    (he : table msg.authorId = some ⟨s, c⟩)
    (hr : 1000 * config.cooldown_segment_duration ≤ t1 - s)
    (hc : 0 < config.max_shocks_per_segment) :
    word_shock config msg table t1 t2 true =
      (update (update table msg.authorId ⟨t1, 0⟩) msg.authorId ⟨t1, 1⟩,
        Outcome.shocked) := by
  simp [word_shock, can_shock, hds, he, hr, hc]

/-- Every entry of the table has its count within the configured limit. -/
def TableBounded (m : Nat) (table : Table) : Prop :=
  ∀ u e, table u = some e → e.shock_count ≤ m

theorem update_bounded (m : Nat) (table : Table)
    (h : TableBounded m table) (u0 : Nat) (e0 : ShockCooldown)
    (h0 : e0.shock_count ≤ m) : TableBounded m (update table u0 e0) := by
  intro u e hu
  unfold update at hu
  split at hu
  · cases hu; exact h0
  · exact h u e hu

theorem can_shock_fst (self : ShockCooldown) (t L m : Nat) :
    (can_shock self t L m).1 = self ∨ (can_shock self t L m).1 = ⟨t, 0⟩ := by
  simp only [can_shock]
  split
  · exact Or.inr rfl
  · exact Or.inl rfl

theorem can_shock_snd (self : ShockCooldown) (t L m : Nat) :
    (can_shock self t L m).2
      = decide ((can_shock self t L m).1.shock_count < m) := rfl

/-- One handler invocation preserves the counter bound for every user. -/
theorem word_shock_bounded (config : Config) (msg : Message) (table : Table)
    (t1 t2 : Nat) (ok : Bool)
    (h : TableBounded config.max_shocks_per_segment table) :
    TableBounded config.max_shocks_per_segment
      (word_shock config msg table t1 t2 ok).1 := by
  have h0 : ((table msg.authorId).getD ⟨t1, 0⟩).shock_count
      ≤ config.max_shocks_per_segment := by
    cases hcase : table msg.authorId with
    | none => simp
    | some e' => simpa using h _ e' hcase
  have h1 : (can_shock ((table msg.authorId).getD ⟨t1, 0⟩) t1
      (1000 * config.cooldown_segment_duration)
      config.max_shocks_per_segment).1.shock_count
        ≤ config.max_shocks_per_segment := by
    rcases can_shock_fst ((table msg.authorId).getD ⟨t1, 0⟩) t1
        (1000 * config.cooldown_segment_duration)
        config.max_shocks_per_segment with hh | hh <;> rw [hh]
    · exact h0
    · simp
  simp only [word_shock]
  split
  case isTrue hds =>
    split
    case isTrue hadm =>
      split
      case isTrue hok =>
        refine update_bounded _ _ (update_bounded _ _ h _ _ h1) _ _ ?_
        rw [can_shock_snd] at hadm
        have hlt := of_decide_eq_true hadm
        simp only
        omega
      case isFalse hok => exact update_bounded _ _ h _ _ h1
    case isFalse hadm => exact update_bounded _ _ h _ _ h1
  case isFalse hds => exact h

/-- Negation of the space class, i.e. the regex class `[^\s]`. -/
def notSpace (c : Nat) : Bool := !isSpaceChar c

theorem runsAux_mem (p : Nat → Bool) (l : List Nat) : ∀ acc t, t ∈ runsAux p l acc →
    (∀ c ∈ acc, p c = true) → t ≠ [] ∧ ∀ c ∈ t, p c = true := by
  induction l with
  | nil =>
    intro acc t ht hacc
    simp only [runsAux] at ht
    split at ht
    · simp at ht
    case isFalse hne =>
      rw [List.mem_singleton] at ht
      subst ht
      exact ⟨by simpa using hne, hacc⟩
  | cons c cs ih =>
    intro acc t ht hacc
    simp only [runsAux] at ht
    split at ht
    case isTrue hp =>
      refine ih (acc ++ [c]) t ht ?_
      intro x hx
      rcases List.mem_append.1 hx with hx | hx
      · exact hacc x hx
      · rw [List.mem_singleton] at hx; subst hx; exact hp
    case isFalse hp =>
      split at ht
      · exact ih [] t ht (by simp)
      case isFalse hne =>
        rcases List.mem_cons.1 ht with rfl | ht
        · exact ⟨by simpa using hne, hacc⟩
        · exact ih [] t ht (by simp)

theorem runsBy_mem (p : Nat → Bool) (l t : List Nat) (h : t ∈ runsBy p l) :
    t ≠ [] ∧ ∀ c ∈ t, p c = true :=
  runsAux_mem p l [] t h (by simp)

theorem head?_dropWhile (q : Nat → Bool) (l : List Nat) (c : Nat)
    (h : (l.dropWhile q).head? = some c) : q c = false := by
  induction l with
  | nil => simp [List.dropWhile] at h
  | cons a as ih =>
    simp only [List.dropWhile] at h
    split at h
    next hq => exact ih h
    next hq =>
      simp only [List.head?] at h
      cases h
      exact hq

theorem trimNonWord_sublist (l : List Nat) : (trimNonWord l).Sublist l := by
  unfold trimNonWord
  have h1 : (List.dropWhile (fun c => !isWordChar c) l).Sublist l :=
    List.dropWhile_sublist _
  have h2 : ((l.dropWhile (fun c => !isWordChar c)).reverse.dropWhile
      (fun c => !isWordChar c)).Sublist
        (l.dropWhile (fun c => !isWordChar c)).reverse :=
    List.dropWhile_sublist _
  have h3 := h2.reverse
  rw [List.reverse_reverse] at h3
  exact h3.trans h1

theorem trimNonWord_head (l : List Nat) (c : Nat)
    (h : (trimNonWord l).head? = some c) : isWordChar c = true := by
  unfold trimNonWord at h
  have hsplit : ((l.dropWhile (fun c => !isWordChar c)).reverse.dropWhile
        (fun c => !isWordChar c)).reverse
      ++ ((l.dropWhile (fun c => !isWordChar c)).reverse.takeWhile
        (fun c => !isWordChar c)).reverse
      = l.dropWhile (fun c => !isWordChar c) := by
    rw [← List.reverse_append, List.takeWhile_append_dropWhile,
      List.reverse_reverse]
  have hmhead : (l.dropWhile (fun c => !isWordChar c)).head? = some c := by
    rw [← hsplit, List.head?_append, h]; rfl
  have := head?_dropWhile (fun c => !isWordChar c) l c hmhead
  simpa using this

theorem trimNonWord_getLast (l : List Nat) (c : Nat)
    (h : (trimNonWord l).getLast? = some c) : isWordChar c = true := by
  unfold trimNonWord at h
  rw [List.getLast?_reverse] at h
  have := head?_dropWhile (fun c => !isWordChar c)
    ((l.dropWhile (fun c => !isWordChar c)).reverse) c h
  simpa using this

/-- Membership of a token in `message_words` comes from a whitespace chunk
whose trim is that token. -/
theorem message_words_mem (content t : List Nat) (h : t ∈ message_words content) :
    ∃ chunk ∈ runsBy (fun c => !isSpaceChar c) content,
      trimNonWord chunk = t ∧ t ≠ [] := by
  unfold message_words at h
  rw [List.mem_filterMap] at h
  obtain ⟨chunk, hchunk, hf⟩ := h
  refine ⟨chunk, hchunk, ?_⟩
  dsimp only at hf
  split at hf
  next => cases hf
  next hne =>
    cases hf
    exact ⟨rfl, by simpa using hne⟩

/-- Presence of an uppercase ASCII letter. -/
def has_uppercase (w : List Nat) : Bool := w.any (fun c => 65 ≤ c && c ≤ 90)

theorem lower_char_bound (c : Nat) : ¬ (65 ≤ lower_char c ∧ lower_char c ≤ 90) := by
  unfold lower_char
  split
  case isTrue h =>
    simp only [Bool.and_eq_true, decide_eq_true_eq] at h
    omega
  case isFalse h =>
    simp only [Bool.and_eq_true, decide_eq_true_eq, not_and] at h
    omega

theorem to_lowercase_no_upper (w : List Nat) :
    has_uppercase (to_lowercase w) = false := by
  unfold has_uppercase to_lowercase
  rw [List.any_eq_false]
  intro x hx
  rcases List.mem_map.1 hx with ⟨c, _, rfl⟩
  intro hcontra
  simp only [Bool.and_eq_true, decide_eq_true_eq] at hcontra
  exact lower_char_bound c hcontra

theorem any_filter_eq (l : List (List Nat)) (q f : List Nat → Bool)
    (h : ∀ x ∈ l, q x = false → f x = false) :
    (l.filter q).any f = l.any f := by
  induction l with
  | nil => rfl
  | cons a as ih =>
    rw [List.filter_cons]
    by_cases hq : q a = true
    · rw [if_pos hq]
      simp only [List.any_cons]
      rw [ih fun x hx => h x (List.mem_cons_of_mem _ hx)]
    · have hq' : q a = false := by simpa using hq
      rw [if_neg (by simp [hq'])]
      simp only [List.any_cons]
      rw [h a (List.mem_cons_self a as) hq',
        ih fun x hx => h x (List.mem_cons_of_mem _ hx)]
      simp

theorem u64_sub_of_le (a b : Nat) (hb : b ≤ a) (ha : a < 2 ^ 64) :
    u64_sub a b = a - b := by
  unfold u64_sub
  omega

/-- C4 (counterexample). The claim says the handler tokenizes by splitting
on runs of non-word characters (so that a word is a maximal run of letters,
digits and underscores).  The source regex `(\b[^\s]+\b)` instead cannot
split inside a whitespace-free chunk: on the text "cat,dog" it produces the
single token "cat,dog", while splitting on non-word runs would produce the
two tokens "cat" and "dog". -/
theorem C4_tokenization_counterexample :
    message_words (ascii "cat,dog") = [ascii "cat,dog"] ∧
    spec_tokens (ascii "cat,dog") = [ascii "cat", ascii "dog"] ∧
    message_words (ascii "cat,dog") ≠ spec_tokens (ascii "cat,dog") := by
  decide

/-- C4 (amended). The handler splits the text on runs of whitespace and
trims the leading and trailing non-word characters of each chunk, keeping
interior non-word characters inside the token; chunks without any word
character yield no token, and empty input yields zero tokens.  Hence every
token is non-empty, contains no whitespace, and begins and ends with a word
character (letter, digit or underscore).  The trigger-word check of
`do_shock` is evaluated over exactly these `message_words` tokens. -/
theorem C4_tokenization_amended :
    message_words [] = [] ∧
    ∀ content t, t ∈ message_words content →
      t ≠ [] ∧ t.all notSpace = true ∧
      t.head?.any isWordChar = true ∧ t.getLast?.any isWordChar = true := by
  constructor
  · rfl
  · intro content t ht
    obtain ⟨chunk, hchunk, htrim, hne⟩ := message_words_mem content t ht
    have hrun := runsBy_mem (fun c => !isSpaceChar c) content chunk hchunk
    refine ⟨hne, ?_, ?_, ?_⟩
    · rw [List.all_eq_true]
      intro c hc
      have hmem : c ∈ chunk := by
        refine (trimNonWord_sublist chunk).subset ?_
        rw [htrim]; exact hc
      have := hrun.2 c hmem
      simpa [notSpace] using this
    · cases hh : t.head? with
      | none =>
        rw [List.head?_eq_none_iff] at hh
        exact absurd hh hne
      | some c =>
        have : isWordChar c = true := by
          refine trimNonWord_head chunk c ?_
          rw [htrim]; exact hh
        simpa [Option.any] using this
    · cases hh : t.getLast? with
      | none =>
        rw [List.getLast?_eq_none_iff] at hh
        exact absurd hh hne
      | some c =>
        have : isWordChar c = true := by
          refine trimNonWord_getLast chunk c ?_
          rw [htrim]; exact hh
        simpa [Option.any] using this

/-- C4 (witness for the amended theorem): the token "cat" extracted from
"!cat! x" is non-empty, whitespace-free and word-character delimited. -/
theorem C4_tokenization_witness :
    ascii "cat" ≠ [] ∧ (ascii "cat").all notSpace = true ∧
    (ascii "cat").head?.any isWordChar = true ∧
    (ascii "cat").getLast?.any isWordChar = true :=
  C4_tokenization_amended.2 (ascii "!cat! x") (ascii "cat") (by decide)

/-- C7 (confirmed). Trigger matching is whole-token only: if no token of
the message, lower-cased, is literally equal to a configured trigger word
(in particular when a trigger word occurs only as a substring of a larger
token), and no operator is mentioned, then `do_shock` is false. -/
theorem C7_whole_token_matching (config : Config) (msg : Message)
    (hops : ∀ x ∈ config.operator_ids, msg.mentionedUserIds.contains x = false)
    (hwords : ∀ t ∈ message_words msg.content,
      ∀ w ∈ config.trigger_words, to_lowercase t ≠ w) :
    do_shock config msg = false := by
  unfold do_shock
  rw [Bool.or_eq_false_iff]
  constructor
  · rw [List.any_eq_false]
    intro x hx
    have := hops x hx
    simpa using this
  · rw [List.any_eq_false]
    intro t ht
    rw [Bool.not_eq_true, List.any_eq_false]
    intro w hw
    intro hbe
    exact hwords t ht w hw (eq_of_beq hbe).symm

/-- C7 (witness): with `triggerWords = ["cat"]` and text "category" (no
operator mention), the decision is false — "cat" is a substring of the
single token "category" but does not match it. -/
theorem C7_whole_token_witness :
    do_shock ⟨[], [ascii "cat"], 60, 2⟩ ⟨ascii "category", [], 1⟩ = false :=
  C7_whole_token_matching ⟨[], [ascii "cat"], 60, 2⟩ ⟨ascii "category", [], 1⟩
    (by decide) (by decide)

/-- C8 (confirmed). If any configured operator id is among the mentioned
users, `do_shock` is true regardless of the message text: the mention check
is the first arm of the short-circuiting disjunction in the source's
labelled block, so the trigger-word loop is not even consulted. -/
theorem C8_operator_mention (config : Config) (msg : Message) (x : Nat)
    (hx : x ∈ config.operator_ids) (hm : x ∈ msg.mentionedUserIds) :
    do_shock config msg = true := by
  unfold do_shock
  rw [Bool.or_eq_true]
  left
  rw [List.any_eq_true]
  exact ⟨x, hx, by simpa using hm⟩

/-- C8 (witness): user 5 is an operator and is mentioned; the text contains
no trigger word, yet the decision is true. -/
theorem C8_operator_mention_witness :
    do_shock ⟨[5], [ascii "bomb"], 60, 2⟩ ⟨ascii "hello there", [5], 1⟩ = true :=
  C8_operator_mention ⟨[5], [ascii "bomb"], 60, 2⟩ ⟨ascii "hello there", [5], 1⟩
    5 (by decide) (by decide)

/-- C10 (confirmed). A configured trigger word containing an uppercase
ASCII letter can never match: each token is lower-cased before the equality
comparison against the stored word, and a lower-cased token contains no
uppercase letter.  Hence removing every such word from the configuration
never changes the decision, for any message. -/
theorem C10_uppercase_trigger_words_inert (config : Config) (msg : Message) :
    do_shock
      ⟨config.operator_ids,
        config.trigger_words.filter (fun w => !has_uppercase w),
        config.cooldown_segment_duration, config.max_shocks_per_segment⟩ msg
    = do_shock config msg := by
  unfold do_shock
  congr 1
  have hfun : (fun word => (config.trigger_words.filter
        (fun w => !has_uppercase w)).any (fun x => x == to_lowercase word))
      = fun word => config.trigger_words.any (fun x => x == to_lowercase word) := by
    funext word
    refine any_filter_eq config.trigger_words _ _ ?_
    intro x _ hq
    have hup : has_uppercase x = true := by simpa using hq
    rw [Bool.eq_false_iff]
    intro hbe
    have hx := eq_of_beq hbe
    rw [hx] at hup
    rw [to_lowercase_no_upper word] at hup
    cases hup
  rw [hfun]

/-- C1 (code evaluation). One qualifying message from user 1 against a
fresh table, limit 2.  When the actuator call succeeds the count becomes 1;
when it fails, the handler panicked after admission was granted (the
`panicked` outcome is only reachable on the admitted branch) and the
entry's count is still 0: the granted firing was never recorded, contrary
to the claim that the increment happens regardless of actuator success and
contrary to `can_shock`'s own doc comment. -/
theorem C1_increment_lost_on_actuator_failure :
    (word_shock ⟨[], [ascii "shock"], 60, 2⟩ ⟨ascii "shock", [], 1⟩
      emptyTable 0 0 true).1 1 = some ⟨0, 1⟩ ∧
    (word_shock ⟨[], [ascii "shock"], 60, 2⟩ ⟨ascii "shock", [], 1⟩
      emptyTable 0 0 true).2 = Outcome.shocked ∧
    (word_shock ⟨[], [ascii "shock"], 60, 2⟩ ⟨ascii "shock", [], 1⟩
      emptyTable 0 0 false).2 = Outcome.panicked ∧
    (word_shock ⟨[], [ascii "shock"], 60, 2⟩ ⟨ascii "shock", [], 1⟩
      emptyTable 0 0 false).1 1 = some ⟨0, 0⟩ := by
  decide

/-- The denial wait the claim specifies: `ceil(windowDuration - (now -
windowStart))`, with times in milliseconds and the result in whole
seconds.  Stated from the spec's words, for comparison with the source's
computation. -/
def spec_seconds_remaining (d start now : Nat) : Nat :=
  (1000 * d - (now - start) + 999) / 1000

/-- C2 (counterexample).  Window 60 s, limit 2, entry `{start = 0,
count = 2}`; the rollover check runs at 2000 ms but the denial reply reads
the clock again at 3000 ms: the code reports 57 seconds, while the value
the claim specifies — computed from the single clock reading used for the
rollover check — is 58. -/
theorem C2_two_clock_readings_counterexample :
    (word_shock ⟨[], [ascii "x"], 60, 2⟩ ⟨ascii "x", [], 1⟩
      (update emptyTable 1 ⟨0, 2⟩) 2000 3000 true).2 = Outcome.denied 57 ∧
    spec_seconds_remaining 60 0 2000 = 58 ∧ (57 : Nat) ≠ 58 := by
  decide

/-- C2 (amended).  On a denial without rollover the reported wait is
computed from a second, later clock reading `t2` (the `elapsed()` call in
the reply computation), as `windowDuration - floor((t2 - windowStart)/1s)`
in `u64` arithmetic; only when the two readings coincide does it equal the
ceiling formula of the claim, `ceil(windowDuration - (now - windowStart))`,
which is then non-negative by construction. -/
theorem C2_denied_seconds_amended (config : Config) (msg : Message)
    (table : Table) (t1 t2 : Nat) (ok : Bool) (s c : Nat)
    (hds : do_shock config msg = true)
    (he : table msg.authorId = some ⟨s, c⟩)
    (hn : t1 - s < 1000 * config.cooldown_segment_duration)
    (hc : config.max_shocks_per_segment ≤ c)
    (hd : config.cooldown_segment_duration < 2 ^ 32) :
    (word_shock config msg table t1 t2 ok).2
      = Outcome.denied (u64_sub config.cooldown_segment_duration
          ((t2 - s) / 1000)) ∧
    (t2 = t1 → s ≤ t1 →
      u64_sub config.cooldown_segment_duration ((t2 - s) / 1000)
        = spec_seconds_remaining config.cooldown_segment_duration s t1) := by
  constructor
  · rw [ws_denied config msg table t1 t2 ok s c hds he hn hc]
  · intro ht hs
    subst ht
    unfold u64_sub spec_seconds_remaining
    have hpow : (2 : Nat) ^ 64 = 18446744073709551616 := by norm_num
    have hpow32 : (2 : Nat) ^ 32 = 4294967296 := by norm_num
    rw [hpow]
    rw [hpow32] at hd
    omega

/-- C2 (witness for the amended theorem): with both readings at 2000 ms the
code reports `u64_sub 60 2 = 58`, which equals the claim's ceiling
formula. -/
theorem C2_denied_seconds_witness :
    (word_shock ⟨[], [ascii "x"], 60, 2⟩ ⟨ascii "x", [], 1⟩
      (update emptyTable 1 ⟨0, 2⟩) 2000 2000 true).2
      = Outcome.denied (u64_sub 60 ((2000 - 0) / 1000)) ∧
    u64_sub 60 ((2000 - 0) / 1000) = spec_seconds_remaining 60 0 2000 :=
  ⟨(C2_denied_seconds_amended ⟨[], [ascii "x"], 60, 2⟩ ⟨ascii "x", [], 1⟩
      (update emptyTable 1 ⟨0, 2⟩) 2000 2000 true 0 2
      (by decide) (by decide) (by decide) (by decide) (by decide)).1,
    (C2_denied_seconds_amended ⟨[], [ascii "x"], 60, 2⟩ ⟨ascii "x", [], 1⟩
      (update emptyTable 1 ⟨0, 2⟩) 2000 2000 true 0 2
      (by decide) (by decide) (by decide) (by decide) (by decide)).2
      rfl (by decide)⟩

/-- Configuration of the C3 scenario: window 60 s, limit 2 per window. -/
def cfgC3 : Config := ⟨[], [ascii "shock"], 60, 2⟩

/-- A qualifying message from user `u` in the C3 scenario. -/
def msgC3 (u : Nat) : Message := ⟨ascii "shock", [], u⟩

/-- Table after the first C3 call, at `t0`. -/
def tableC3a (u t0 : Nat) : Table :=
  (word_shock cfgC3 (msgC3 u) emptyTable t0 t0 true).1

/-- Table after the second C3 call, at `t0 + 1 s`. -/
def tableC3b (u t0 : Nat) : Table :=
  (word_shock cfgC3 (msgC3 u) (tableC3a u t0) (t0 + 1000) (t0 + 1000) true).1

/-- Table after the third C3 call, at `t0 + 2 s`. -/
def tableC3c (u t0 : Nat) : Table :=
  (word_shock cfgC3 (msgC3 u) (tableC3b u t0) (t0 + 2000) (t0 + 2000) true).1

/-- C3 (confirmed).  With window 60 s and limit 2, for any user `u` and any
start instant `t0` (milliseconds): calls at `t0` and `t0 + 1 s` are allowed,
the call at `t0 + 2 s` is denied with 58 seconds remaining, and the call at
`t0 + 61 s` rolls the window over, is allowed, and leaves the user's entry
with a fresh window start and count 1. -/
theorem C3_fixed_window_scenario (u t0 : Nat) :
    (word_shock cfgC3 (msgC3 u) emptyTable t0 t0 true).2 = Outcome.shocked ∧
    (word_shock cfgC3 (msgC3 u) (tableC3a u t0)
      (t0 + 1000) (t0 + 1000) true).2 = Outcome.shocked ∧
    (word_shock cfgC3 (msgC3 u) (tableC3b u t0)
      (t0 + 2000) (t0 + 2000) true).2 = Outcome.denied 58 ∧
    (word_shock cfgC3 (msgC3 u) (tableC3c u t0)
      (t0 + 61000) (t0 + 61000) true).2 = Outcome.shocked ∧
    (word_shock cfgC3 (msgC3 u) (tableC3c u t0)
      (t0 + 61000) (t0 + 61000) true).1 u = some ⟨t0 + 61000, 1⟩ := by
  have hds : ∀ v, do_shock cfgC3 (msgC3 v) = true := fun v => rfl
  have e1 : word_shock cfgC3 (msgC3 u) emptyTable t0 t0 true
      = (update (update emptyTable u ⟨t0, 0⟩) u ⟨t0, 1⟩, Outcome.shocked) :=
    ws_fresh cfgC3 (msgC3 u) emptyTable t0 t0 (hds u) rfl (by decide)
  have tba : tableC3a u t0 u = some ⟨t0, 1⟩ := by
    unfold tableC3a
    rw [e1]
    exact update_same _ _ _
  have e2 : word_shock cfgC3 (msgC3 u) (tableC3a u t0)
        (t0 + 1000) (t0 + 1000) true
      = (update (update (tableC3a u t0) u ⟨t0, 1⟩) u ⟨t0, 2⟩,
          Outcome.shocked) :=
    ws_allowed cfgC3 (msgC3 u) (tableC3a u t0) (t0 + 1000) (t0 + 1000) t0 1
      (hds u) tba (show t0 + 1000 - t0 < 1000 * 60 by omega) (by decide)
  have tbb : tableC3b u t0 u = some ⟨t0, 2⟩ := by
    unfold tableC3b
    rw [e2]
    exact update_same _ _ _
  have e3 : word_shock cfgC3 (msgC3 u) (tableC3b u t0)
        (t0 + 2000) (t0 + 2000) true
      = (update (tableC3b u t0) u ⟨t0, 2⟩,
          Outcome.denied (u64_sub cfgC3.cooldown_segment_duration
            ((t0 + 2000 - t0) / 1000))) :=
    ws_denied cfgC3 (msgC3 u) (tableC3b u t0) (t0 + 2000) (t0 + 2000) true t0 2
      (hds u) tbb (show t0 + 2000 - t0 < 1000 * 60 by omega) (by decide)
  have tbc : tableC3c u t0 u = some ⟨t0, 2⟩ := by
    unfold tableC3c
    rw [e3]
    exact update_same _ _ _
  have e4 : word_shock cfgC3 (msgC3 u) (tableC3c u t0)
        (t0 + 61000) (t0 + 61000) true
      = (update (update (tableC3c u t0) u ⟨t0 + 61000, 0⟩) u ⟨t0 + 61000, 1⟩,
          Outcome.shocked) :=
    ws_rollover cfgC3 (msgC3 u) (tableC3c u t0) (t0 + 61000) (t0 + 61000) t0 2
      (hds u) tbc (show 1000 * 60 ≤ t0 + 61000 - t0 by omega) (by decide)
  refine ⟨by rw [e1], by rw [e2], ?_, by rw [e4], ?_⟩
  · rw [e3]
    have harith : t0 + 2000 - t0 = 2000 := by omega
    rw [harith]
    rfl
  · rw [e4]
    exact update_same _ _ _

/-- Runs preserve the per-user counter bound. -/
theorem run_bounded (config : Config) (events : List Event) :
    ∀ table, TableBounded config.max_shocks_per_segment table →
      TableBounded config.max_shocks_per_segment (run config table events) := by
  induction events with
  | nil => intro table h; exact h
  | cons ev rest ih =>
    intro table h
    exact ih _ (word_shock_bounded config ev.msg table ev.t1 ev.t2 ev.shock_ok h)

/-- C5 (confirmed).  Starting from the empty table, after any sequence of
handler invocations every user's recorded count lies in
`[0, max_shocks_per_segment]`: it is never negative (it is a `Nat`) and
never exceeds the configured maximum as an observable post-state. -/
theorem C5_count_invariant (config : Config) (events : List Event)
    (u : Nat) (e : ShockCooldown)
    (h : run config emptyTable events u = some e) :
    0 ≤ e.shock_count ∧ e.shock_count ≤ config.max_shocks_per_segment := by
  refine ⟨Nat.zero_le _, ?_⟩
  refine run_bounded config events emptyTable ?_ u e h
  intro v e' he'
  simp [emptyTable] at he'

/-- C5 (witness): after one allowed firing with limit 2, user 7's count is
1 ≤ 2. -/
theorem C5_count_invariant_witness :
    0 ≤ (ShockCooldown.mk 0 1).shock_count ∧
    (ShockCooldown.mk 0 1).shock_count
      ≤ (Config.mk [] [ascii "shock"] 60 2).max_shocks_per_segment :=
  C5_count_invariant (Config.mk [] [ascii "shock"] 60 2)
    [⟨0, 0, true, ⟨ascii "shock", [], 7⟩⟩] 7 ⟨0, 1⟩ (by decide)

/-- Step lemma: whenever `can_shock` answers false the handler denies,
re-inserting whatever entry `can_shock` left (possibly rolled over), with
the wait computed from the second clock reading `t2` against that entry's
stopwatch. -/
theorem ws_denied_general (config : Config) (msg : Message) (table : Table)
    (t1 t2 : Nat) (ok : Bool)
    (hds : do_shock config msg = true)
    (hadm : (can_shock ((table msg.authorId).getD ⟨t1, 0⟩) t1
        (1000 * config.cooldown_segment_duration)
        config.max_shocks_per_segment).2 = false) :
    word_shock config msg table t1 t2 ok =
      (update table msg.authorId
        (can_shock ((table msg.authorId).getD ⟨t1, 0⟩) t1
          (1000 * config.cooldown_segment_duration)
          config.max_shocks_per_segment).1,
        Outcome.denied (u64_sub config.cooldown_segment_duration
          ((t2 - (can_shock ((table msg.authorId).getD ⟨t1, 0⟩) t1
            (1000 * config.cooldown_segment_duration)
            config.max_shocks_per_segment).1.stopwatch) / 1000))) := by
  simp [word_shock, hds, hadm]

/-- C6 (confirmed).  With `max_shocks_per_segment = 0` every qualifying
call is denied: the user's entry after the call is exactly what `can_shock`
left (window start unchanged, or rolled over to the call instant), the
reported wait counts down to the next window boundary from that entry's
window start, and — taking the single clock instant `t` for the whole call —
it never exceeds the window duration and never wraps (so it is never
negative). -/
theorem C6_never_allow (config : Config) (msg : Message) (table : Table)
    (t : Nat) (ok : Bool)
    (hm : config.max_shocks_per_segment = 0)
    (hds : do_shock config msg = true)
    (hd : config.cooldown_segment_duration < 2 ^ 32) :
    (word_shock config msg table t t ok).1 msg.authorId
      = some (can_shock ((table msg.authorId).getD ⟨t, 0⟩) t
          (1000 * config.cooldown_segment_duration)
          config.max_shocks_per_segment).1 ∧
    (word_shock config msg table t t ok).2
      = Outcome.denied (config.cooldown_segment_duration
          - (t - (can_shock ((table msg.authorId).getD ⟨t, 0⟩) t
              (1000 * config.cooldown_segment_duration)
              config.max_shocks_per_segment).1.stopwatch) / 1000) ∧
    config.cooldown_segment_duration
        - (t - (can_shock ((table msg.authorId).getD ⟨t, 0⟩) t
            (1000 * config.cooldown_segment_duration)
            config.max_shocks_per_segment).1.stopwatch) / 1000
      ≤ config.cooldown_segment_duration := by
  have hadm : (can_shock ((table msg.authorId).getD ⟨t, 0⟩) t
      (1000 * config.cooldown_segment_duration)
      config.max_shocks_per_segment).2 = false := by
    rw [can_shock_snd, hm]
    simp
  have hd64 : config.cooldown_segment_duration < 2 ^ 64 := by
    have hpp : (2 : Nat) ^ 32 < 2 ^ 64 := by norm_num
    omega
  have hx : (t - (can_shock ((table msg.authorId).getD ⟨t, 0⟩) t
      (1000 * config.cooldown_segment_duration)
      config.max_shocks_per_segment).1.stopwatch) / 1000
        ≤ config.cooldown_segment_duration := by
    by_cases hres : 1000 * config.cooldown_segment_duration
        ≤ t - ((table msg.authorId).getD ⟨t, 0⟩).stopwatch
    · have hfst : (can_shock ((table msg.authorId).getD ⟨t, 0⟩) t
          (1000 * config.cooldown_segment_duration)
          config.max_shocks_per_segment).1 = ⟨t, 0⟩ := by
        simp [can_shock, hres]
      rw [hfst]
      simp
    · have hfst : (can_shock ((table msg.authorId).getD ⟨t, 0⟩) t
          (1000 * config.cooldown_segment_duration)
          config.max_shocks_per_segment).1
            = (table msg.authorId).getD ⟨t, 0⟩ := by
        simp [can_shock, hres]
      rw [hfst]
      omega
  have heq := ws_denied_general config msg table t t ok hds hadm
  refine ⟨?_, ?_, Nat.sub_le _ _⟩
  · rw [heq]
    exact update_same _ _ _
  · rw [heq]
    rw [u64_sub_of_le _ _ hx hd64]

/-- C6 (witness): window 60 s, limit 0, fresh table: the first call from
user 3 is denied with the full 60 seconds remaining and the entry created
with count 0. -/
theorem C6_never_allow_witness :
    (word_shock ⟨[], [ascii "x"], 60, 0⟩ ⟨ascii "x", [], 3⟩
      emptyTable 0 0 true).1 3 = some ⟨0, 0⟩ ∧
    (word_shock ⟨[], [ascii "x"], 60, 0⟩ ⟨ascii "x", [], 3⟩
      emptyTable 0 0 true).2 = Outcome.denied 60 ∧
    (60 : Nat) - (0 - 0) / 1000 ≤ 60 :=
  C6_never_allow ⟨[], [ascii "x"], 60, 0⟩ ⟨ascii "x", [], 3⟩ emptyTable 0 true
    rfl (by decide) (by decide)

/-- C9 (confirmed).  A denial without rollover (existing entry, window not
yet elapsed, count at the limit) changes nothing: the author's entry keeps
its window start and count (the `HashMap` write re-inserts the identical
value), every other user's entry is untouched, and the outcome is the
denial with the wait computed from the second clock reading. -/
theorem C9_denial_frame (config : Config) (msg : Message) (table : Table)
    (t1 t2 : Nat) (ok : Bool) (s c : Nat)
    (hds : do_shock config msg = true)
    (he : table msg.authorId = some ⟨s, c⟩)
    (hn : t1 - s < 1000 * config.cooldown_segment_duration)
    (hc : config.max_shocks_per_segment ≤ c) :
    (∀ v, (word_shock config msg table t1 t2 ok).1 v = table v) ∧
    (word_shock config msg table t1 t2 ok).2
      = Outcome.denied (u64_sub config.cooldown_segment_duration
          ((t2 - s) / 1000)) := by
  rw [ws_denied config msg table t1 t2 ok s c hds he hn hc]
  constructor
  · intro v
    by_cases hv : v = msg.authorId
    · subst hv
      exact (update_same table msg.authorId ⟨s, c⟩).trans he.symm
    · exact update_other table msg.authorId ⟨s, c⟩ v hv
  · rfl

/-- C9 (witness): user 4 at the limit, window not elapsed: the denial
leaves user 4's entry and user 99's (absent) entry exactly as before. -/
theorem C9_denial_frame_witness :
    (word_shock ⟨[], [ascii "x"], 60, 1⟩ ⟨ascii "x", [], 4⟩
      (update emptyTable 4 ⟨0, 1⟩) 5000 6000 true).1 99
      = update emptyTable 4 ⟨0, 1⟩ 99 ∧
    (word_shock ⟨[], [ascii "x"], 60, 1⟩ ⟨ascii "x", [], 4⟩
      (update emptyTable 4 ⟨0, 1⟩) 5000 6000 true).2
      = Outcome.denied (u64_sub 60 ((6000 - 0) / 1000)) :=
  ⟨(C9_denial_frame ⟨[], [ascii "x"], 60, 1⟩ ⟨ascii "x", [], 4⟩
      (update emptyTable 4 ⟨0, 1⟩) 5000 6000 true 0 1
      (by decide) (by decide) (by decide) (by decide)).1 99,
    (C9_denial_frame ⟨[], [ascii "x"], 60, 1⟩ ⟨ascii "x", [], 4⟩
      (update emptyTable 4 ⟨0, 1⟩) 5000 6000 true 0 1
      (by decide) (by decide) (by decide) (by decide)).2⟩

end MessageShock
